import Mathlib

/-!
Verification development for the `deck-pdf-generator` repository
(`src/deck_pdf_generator/`): a shallow embedding in Lean 4 of the card
data model, the text wrapper, the icon resolution performed by the card
parser, the front/back side composition, and the page layout/pagination
of `render_pdf`, together with theorems about them.

Strings are modelled as `List Char` so that the character-level
operations of the Python source (`str.replace`, `str.split`,
`str.strip`, `" ".join`) can be embedded and reasoned about directly.
Floating-point dimensions and font metrics are modelled as rationals;
the canvas string-width function `c.stringWidth` is abstracted as a
parameter `meas : List Char → ℚ`.
-/

namespace DeckPdf

/-- Character-level model of a Python `str`. -/
abbrev Str := List Char

/-- The whitespace characters recognised by Python's `str.split()` /
`str.strip()` with no arguments: space, tab, newline, carriage return,
vertical tab (11) and form feed (12). -/
def pySpace (c : Char) : Bool :=
  c = ' ' || c = '\t' || c = '\n' || c = '\r' || c.toNat = 11 || c.toNat = 12

/-- Embeds `text.replace('\\n', '\n')` from `wrap_text`
(render.py line 27): the two-character sequence backslash-`n` is
replaced by a real newline, scanning left to right. -/
def normalizeNewlines : Str → Str
  | [] => []
  | '\\' :: 'n' :: rest => '\n' :: normalizeNewlines rest
  | c :: rest => c :: normalizeNewlines rest

/-- Embeds `normalized.split('\n')` (render.py line 28): split on every
newline, keeping empty pieces (Python `str.split` with an explicit
separator). -/
def splitNl : Str → List Str
  | [] => [[]]
  | c :: rest =>
    if c = '\n' then [] :: splitNl rest
    else
      match splitNl rest with
      | [] => [[c]]
      | s :: ss => (c :: s) :: ss

/-- Auxiliary accumulator version of Python's whitespace `str.split()`:
`acc` holds the characters of the word currently being read, reversed. -/
def pySplitAux : Str → Str → List Str
  | [], acc => if acc = [] then [] else [acc.reverse]
  | c :: rest, acc =>
    if pySpace c then
      if acc = [] then pySplitAux rest [] else acc.reverse :: pySplitAux rest []
    else
      pySplitAux rest (c :: acc)

/-- Embeds Python `s.split()` with no arguments (render.py line 35):
split on runs of whitespace, discarding empty pieces. -/
def pySplit (s : Str) : List Str := pySplitAux s []

/-- Embeds Python `s.strip()` with no arguments: drop leading and
trailing whitespace. -/
def pyStrip (s : Str) : Str :=
  ((s.dropWhile pySpace).reverse.dropWhile pySpace).reverse

/-- `sep.join(parts)` for a single-character separator. -/
def joinSep (sep : Char) : List Str → Str
  | [] => []
  | [p] => p
  | p :: q :: ps => p ++ sep :: joinSep sep (q :: ps)

/-- Embeds `" ".join(parts)`. -/
def joinSpace (parts : List Str) : Str := joinSep ' ' parts

/-- One iteration of the inner word loop of `wrap_text`
(render.py lines 37-48).  The state is the pair
`(lines, cur)` of emitted lines and the words of the line being built. -/
def wrapStep (meas : Str → ℚ) (maxW : ℚ) (st : List Str × List Str) (w : Str) :
    List Str × List Str :=
  if pyStrip (joinSpace (st.2 ++ [w])) = [] then st
  else if meas (pyStrip (joinSpace (st.2 ++ [w]))) ≤ maxW then (st.1, st.2 ++ [w])
  else if st.2 ≠ [] then (st.1 ++ [joinSpace st.2], [w])
  else (st.1 ++ [w], st.2)

/-- Processing of one paragraph by `wrap_text` (render.py lines 29-51):
a paragraph that strips to nothing contributes exactly one empty line;
otherwise its words are folded through `wrapStep` and a nonempty final
`cur` is flushed. -/
def wrapPara (meas : Str → ℚ) (maxW : ℚ) (lines : List Str) (para : Str) :
    List Str :=
  if pyStrip para = [] then lines ++ [[]]
  else if ((pySplit para).foldl (wrapStep meas maxW) (lines, [])).2 ≠ [] then
    ((pySplit para).foldl (wrapStep meas maxW) (lines, [])).1
      ++ [joinSpace ((pySplit para).foldl (wrapStep meas maxW) (lines, [])).2]
  else ((pySplit para).foldl (wrapStep meas maxW) (lines, [])).1

/-- Embeds `wrap_text` (render.py lines 13-53).  The canvas and
font/size pair are abstracted into the width measure `meas`; `text` is
`Option Str` because the Python argument may be `None`
(render.py lines 24-25). -/
def wrap_text (meas : Str → ℚ) (maxW : ℚ) (text : Option Str) : List Str :=
  (match text with
    | none => [[]]
    | some t => splitNl (normalizeNewlines t)).foldl (wrapPara meas maxW) []

/-- Python truthiness of an optional string: `None` and the empty
string are falsy. -/
def pyTruthy (o : Option Str) : Bool :=
  match o with
  | none => false
  | some s => !s.isEmpty

/-- Python `a or b` for an optional string `a` and a string fallback
`b` (`a` wins exactly when it is truthy). -/
def pyOr (a : Option Str) (b : Str) : Str :=
  match a with
  | some s => if s.isEmpty then b else s
  | none => b

/-- `sep.join(parts)` for a multi-character separator. -/
def joinWith (sep : Str) : List Str → Str
  | [] => []
  | [p] => p
  | p :: q :: ps => p ++ sep ++ joinWith sep (q :: ps)

/-- Decimal rendering of a Python `int`, as `str(n)` produces it. -/
def intStr (n : Int) : Str := (toString n).toList

/-- The `Card` dataclass (types.py).  All string fields are `Str`;
fields that are `Optional` (or default to `None`) in the dataclass are
`Option`-typed.  `effect` is declared `str` in the dataclass but flows
into `wrap_text`, which accepts `None`, so it is `Option Str` here. -/
structure Card where
  id : Str
  type : Str
  cost : Int
  name : Str
  subtitle : Str
  effect : Option Str
  hp : Option Int := none
  atk : Option Int := none
  lootBudget : Option Int := none
  biome : Option Str := none
  back_icon : Option Str := none
  school : Option Str := none
  slot : Option Str := none
  klass : Option Str := none
  front_icon : Option Str := none
  deck : Option Str := none
  count : Int := 1
  tags : List Str := []
  deriving DecidableEq

/-- The icon theme: the four read-only mappings loaded by config.py
(`TYPE_ICONS`, `FRONT_DECK_ICONS`, `BACK_DECK_ICONS`,
`LOOT_FRONT_DEFAULTS`), modelled as association lists, plus
`FRONT_BIOME_ICONS`.

Modelled from the spec: `FRONT_BIOME_ICONS` (and the constant
`STAT_SIZE`) are read by render.py but are not defined in the
config.py under src/; the spec describes a biome-to-glyph mapping used
for monster headers and backs, so the mapping is carried here as a
theme field.  Deck colors are irrelevant to the ops recorded below and
are omitted. -/
structure IconTheme where
  typeIcons : List (Str × Str)
  frontDeckIcons : List (Str × Str)
  backDeckIcons : List (Str × Str)
  lootFrontDefaults : List (Str × Str)
  frontBiomeIcons : List (Str × Str)
  deriving DecidableEq

/-- `icon_for` (render.py lines 56-65): the type-keyed glyph, else the
school-keyed glyph, else a bullet. -/
def icon_for (th : IconTheme) (card : Card) : Str :=
  match List.lookup card.type th.typeIcons with
  | some g => g
  | none =>
    match card.school with
    | some sc =>
      if sc.isEmpty then ['•']
      else
        match List.lookup sc th.typeIcons with
        | some g => g
        | none => ['•']
    | none => ['•']

/-- The effective displayed value of `draw_card` (render.py
lines 128-133): the loot budget for a monster card that has one, the
cost field otherwise. -/
def display_cost (card : Card) : Int :=
  if card.type = "monster".toList ∧ card.lootBudget ≠ none then
    card.lootBudget.getD 0
  else card.cost

/-- `left_icon_text` (render.py lines 144-149): for a monster with a
truthy biome, the biome glyph; otherwise the type glyph or the
`icon_for` fallback. -/
def left_icon_text (th : IconTheme) (card : Card) : Str :=
  let fromBiome : Option Str :=
    if card.type = "monster".toList ∧ pyTruthy card.biome then
      List.lookup (card.biome.getD []) th.frontBiomeIcons
    else none
  match fromBiome with
  | some s => if s.isEmpty then
      pyOr (List.lookup card.type th.typeIcons) (icon_for th card)
    else s
  | none => pyOr (List.lookup card.type th.typeIcons) (icon_for th card)

/-- One recorded drawing action of `draw_card` / `draw_back`.  Each
constructor carries the drawn content; coordinates and font sizes are
positional data that no claim concerns and are not recorded. -/
inductive DrawOp where
  | rect
  | headerBand
  | cutMarks
  | costGlyph (v : Int)
  | largeIconImage (path : Str)
  | largeIconGlyph (g : Str)
  | smallIconImage (path : Str)
  | smallIconGlyph (g : Str)
  | titleText (s : Str)
  | subtitleText (s : Str)
  | metaLine (s : Str)
  | bodyLine (s : Str)
  | statsRow (s : Str)
  | footerLine (s : Str)
  | backFill (deckName : Str)
  | backIconImage (path : Str)
  | backIconGlyph (g : Str)
  | backCostNumeral (v : Int)
  | backBiomeGlyph (g : Str)
  | backLabel (s : Str)
  deriving DecidableEq

/-- Config constants (config.py), as exact rationals.  `mm` is the
reportlab unit 72 / 25.4 points; `PAGE_SIZE = A4 = (210 mm, 297 mm)`. -/
def mmQ : ℚ := 360 / 127

def PADDING : ℚ := (7 / 2) * mmQ

def HEADER_H : ℚ := 12 * mmQ

def FOOTER_H : ℚ := 8 * mmQ

def ICON_SIZE : ℚ := 10 * mmQ

def BODY_SIZE : ℚ := 9

/-- The `meta` line of `draw_card` (render.py lines 117-126): the
truthy ones among school, type, slot, class joined by a bullet. -/
def meta_text (card : Card) : Str :=
  joinWith " • ".toList
    ((match card.school with
      | some s => if s.isEmpty then [] else [s]
      | none => []) ++
     (if card.type.isEmpty then [] else [card.type]) ++
     (match card.slot with
      | some s => if s.isEmpty then [] else [s]
      | none => []) ++
     (match card.klass with
      | some s => if s.isEmpty then [] else [s]
      | none => []))

/-- The monster stats row parts of `draw_card` (render.py
lines 238-247). -/
def stat_parts (th : IconTheme) (card : Card) : List Str :=
  (match card.hp with
   | some n => ["❤️ ".toList ++ intStr n]
   | none => []) ++
  (match card.atk with
   | some n => ["⚔ ".toList ++ intStr n]
   | none => []) ++
  (match card.lootBudget with
   | some n =>
     [(List.lookup "coin".toList th.typeIcons).getD "◈".toList
       ++ " ".toList ++ intStr n]
   | none => [])

/-- The footer line of `draw_card` (render.py lines 253-259). -/
def footer_text (card : Card) : Str :=
  let tags := joinWith ", ".toList card.tags
  (card.id ++ (if tags.isEmpty then [] else " | ".toList ++ tags)).take 95

/-- The number of body lines drawn by `draw_card` (render.py
lines 224-226): `int(body_h / (BODY_SIZE + 2)) if body_h > 0 else 1`,
where `body_top` depends on whether a large front icon was drawn.
Only the difference `body_top - body_bottom` matters, so the card
origin `y` cancels and `w`, `h` suffice. -/
def max_lines (card : Card) (w h : ℚ) : Int :=
  let content_top := h - PADDING - HEADER_H - 4
  let content_bottom := PADDING + FOOTER_H
  let icon_center_y :=
    content_bottom + (content_top - content_bottom) * (66 / 100)
  let large_size := min (w * (1 / 2)) (h * (35 / 100))
  let body_top :=
    if pyTruthy card.front_icon then icon_center_y - large_size / 2 - 4
    else h - PADDING - HEADER_H - 4
  let body_h := body_top - content_bottom
  if body_h > 0 then ⌊body_h / (BODY_SIZE + 2)⌋ else 1

/-- The front side of a card: the sequence of drawing actions of
`draw_card` (render.py lines 83-259) in source order.  The canvas is
replaced by the recorded op list; the string-width measure is `meas`;
`imgExists` stands for `os.path.exists` on icon rasters (the
exception fallbacks for a raster that exists but fails to decode are
not modelled — image draws succeed).  `x`, `y` only translate
coordinates and are dropped. -/
def draw_card_ops (th : IconTheme) (meas : Str → ℚ) (imgExists : Str → Bool)
    (card : Card) (w h : ℚ) (color : Bool) : List DrawOp :=
  let smallIconOps : List DrawOp :=
    if imgExists ("icons/".toList ++ card.type ++ ".png".toList) then
      [DrawOp.smallIconImage ("icons/".toList ++ card.type ++ ".png".toList)]
    else [DrawOp.smallIconGlyph (left_icon_text th card)]
  let iconBlock : List DrawOp :=
    if pyTruthy card.front_icon then
      let fi := card.front_icon.getD []
      (if imgExists ("icons/".toList ++ fi ++ ".png".toList) then
        [DrawOp.largeIconImage ("icons/".toList ++ fi ++ ".png".toList)]
      else
        [DrawOp.largeIconGlyph (pyOr (List.lookup fi th.typeIcons) fi)])
      ++ smallIconOps
    else smallIconOps
  [DrawOp.rect]
  ++ (if color then [DrawOp.headerBand] else [])
  ++ [DrawOp.cutMarks]
  ++ (if display_cost card ≠ 0 then [DrawOp.costGlyph (display_cost card)]
      else [])
  ++ iconBlock
  ++ [DrawOp.titleText (card.name.take 40),
      DrawOp.subtitleText (card.subtitle.take 55),
      DrawOp.metaLine ((meta_text card).take 80)]
  ++ ((wrap_text meas (w - 2 * PADDING) card.effect).take
        (max_lines card w h).toNat).map DrawOp.bodyLine
  ++ (if card.type = "monster".toList ∧ stat_parts th card ≠ [] then
        [DrawOp.statsRow (joinWith "   ".toList (stat_parts th card))]
      else [])
  ++ [DrawOp.footerLine (footer_text card)]

/-- The back-icon resolution of `draw_back` (render.py lines 274-310):
returns the chosen raster path (if any) and the glyph text. -/
def back_icon_choice (th : IconTheme) (imgExists : Str → Bool)
    (card : Option Card) : Option Str × Str :=
  let icon_text0 :=
    (List.lookup "loot".toList th.backDeckIcons).getD
      ((List.lookup "coin".toList th.typeIcons).getD "◈".toList)
  match card with
  | none => (none, icon_text0)
  | some cd =>
    if pyTruthy cd.back_icon then
      let attr := cd.back_icon.getD []
      let img := "icons/".toList ++ attr ++ ".png".toList
      (if imgExists img then some img else none, attr.take 1)
    else
      let icon_text1 :=
        if pyTruthy cd.deck ∧
            (List.lookup (cd.deck.getD []) th.backDeckIcons).isSome then
          ((List.lookup (cd.deck.getD []) th.backDeckIcons).getD
            icon_text0).take 1
        else if (List.lookup cd.type th.lootFrontDefaults).isSome then
          ((List.lookup "loot".toList th.backDeckIcons).getD
            icon_text0).take 1
        else (icon_for th cd).take 1
      let potential := "icons/".toList ++ cd.type ++ ".png".toList
      (if imgExists potential then some potential else none, icon_text1)

/-- The back side of a card slot: the sequence of drawing actions of
`draw_back` (render.py lines 262-372) in source order; `card = none`
is the empty-back placeholder. -/
def draw_back_ops (th : IconTheme) (imgExists : Str → Bool)
    (card : Option Card) (color : Bool) : List DrawOp :=
  let deck_name : Str :=
    match card with
    | none => "loot".toList
    | some cd => pyOr cd.deck "loot".toList
  let choice := back_icon_choice th imgExists card
  [DrawOp.rect]
  ++ (if color then [DrawOp.backFill deck_name] else [])
  ++ (match choice.1 with
      | some p => [DrawOp.backIconImage p]
      | none => [DrawOp.backIconGlyph (choice.2.take 1)])
  ++ (match card with
      | some cd =>
        if cd.cost ≠ 0 then [DrawOp.backCostNumeral cd.cost] else []
      | none => [])
  ++ (match card with
      | some cd =>
        if cd.type = "monster".toList then
          match (if pyTruthy cd.biome then
              List.lookup (cd.biome.getD []) th.frontBiomeIcons
            else none) with
          | some g => if g.isEmpty then [] else [DrawOp.backBiomeGlyph (g.take 1)]
          | none => []
        else []
      | none => [])
  ++ [DrawOp.backLabel ("Gnarl — ".toList ++ deck_name)]

/-- Tests whether an op is the front cost glyph. -/
def isCostGlyph : DrawOp → Bool
  | DrawOp.costGlyph _ => true
  | _ => false

/-- Tests whether an op is the back cost numeral. -/
def isBackCostNumeral : DrawOp → Bool
  | DrawOp.backCostNumeral _ => true
  | _ => false

/-- Tests whether an op draws a large front icon. -/
def isLargeIcon : DrawOp → Bool
  | DrawOp.largeIconImage _ => true
  | DrawOp.largeIconGlyph _ => true
  | _ => false

/-- Tests whether an op draws the small header icon. -/
def isSmallIcon : DrawOp → Bool
  | DrawOp.smallIconImage _ => true
  | DrawOp.smallIconGlyph _ => true
  | _ => false

/-- `CARD_W` (config.py): 62 mm. -/
def CARD_W : ℚ := 62 * mmQ

/-- `CARD_H` (config.py): 87 mm. -/
def CARD_H : ℚ := 87 * mmQ

/-- The empty icon theme: what config.py loads when the XML theme
files are missing or malformed. -/
def emptyTheme : IconTheme := ⟨[], [], [], [], []⟩

/-- A width measure that counts characters; a concrete stand-in for
`canvas.stringWidth` in witnesses and counterexamples. -/
def lenMeas (s : Str) : ℚ := s.length

/-- A filesystem with no icon rasters. -/
def noImg (_ : Str) : Bool := false

/-- A monster card with cost 5 and loot budget -1: its effective
displayed value is -1 ≤ 0, yet the front draws a cost glyph (Python
only suppresses a zero value) and the back draws the numeral 5 (the
back tests the raw cost field). -/
def negBudgetMonster : Card :=
  { id := [], type := "monster".toList, cost := 5, name := [],
    subtitle := [], effect := none, lootBudget := some (-1) }

/-- A monster card with cost 5 and loot budget 3; front and back
disagree on which value gates and is shown. -/
def budgetMonster : Card :=
  { id := [], type := "monster".toList, cost := 5, name := [],
    subtitle := [], effect := none, lootBudget := some 3 }

/-- The `<loot>` child element of a card node (parser.py lines 41-53):
its attributes, each possibly absent. -/
structure LootNode where
  lootType : Option Str
  cost : Option Str
  school : Option Str
  slot : Option Str
  klass : Option Str
  front_icon : Option Str
  deriving DecidableEq

/-- A `<card>` XML element as consumed by `parse_cards` (parser.py):
the attributes and children relevant to icon/deck/type resolution.
`children` lists the non-loot child elements in document order as
(tag, front-icon attribute). -/
structure CardNode where
  typeAttr : Option Str
  costAttr : Option Str
  schoolAttr : Option Str
  slotAttr : Option Str
  klassAttr : Option Str
  frontIconAttr : Option Str
  loot : Option LootNode
  children : List (Str × Option Str)
  deriving DecidableEq

/-- `node.find(tag)`: the first child with the given tag, returning its
front-icon attribute. -/
def findChild (node : CardNode) (tag : Str) : Option (Option Str) :=
  (node.children.find? (fun c => c.1 == tag)).map Prod.snd

/-- The fixed variant order of parser.py line 81. -/
def variantNames : List Str :=
  ["monster", "biome", "npc", "quest", "curse", "health"].map String.toList

/-- The first variant child found among the fixed variant names
(parser.py lines 81-91), with its front-icon attribute. -/
def firstVariant (node : CardNode) : Option (Str × Option Str) :=
  variantNames.findSome? (fun v => (findChild node v).map (fun fi => (v, fi)))

/-- The in-code school icon map of parser.py lines 56-61. -/
def school_icon_map (s : Str) : Option Str :=
  if s = "attack".toList then some "⚔️".toList
  else if s = "defense".toList then some "🛡️".toList
  else if s = "spell".toList then some "✨".toList
  else if s = "utility".toList then some "⚙️".toList
  else none

/-- The card type / front icon / deck resolution of `parse_cards`
(parser.py lines 33-91), as the triple (ctype, front icon, deck). -/
def parseIconFields (th : IconTheme) (node : CardNode) :
    Str × Option Str × Option Str :=
  match node.loot with
  | some loot =>
    let ctype := loot.lootType.getD "ability".toList
    let fi :=
      if pyTruthy loot.front_icon then loot.front_icon
      else
        match (match loot.school with
               | some s => if s.isEmpty then none else school_icon_map s
               | none => none) with
        | some g => some g
        | none => List.lookup ctype th.lootFrontDefaults
    (ctype, fi, some "loot".toList)
  | none =>
    let ctype0 := pyStrip (node.typeAttr.getD "ability".toList)
    if pyTruthy node.frontIconAttr then (ctype0, node.frontIconAttr, none)
    else
      match firstVariant node with
      | some (v, childFi) =>
        let fi :=
          match childFi with
          | some cf =>
            if cf.isEmpty then List.lookup v th.frontDeckIcons else some cf
          | none => List.lookup v th.frontDeckIcons
        ((if node.typeAttr = none then v else ctype0), fi, some v)
      | none => (ctype0, node.frontIconAttr, none)

/-- The front-icon default chain exactly as the claim states it: a
typed variant gets the deck-level default, else a loot-kind card gets
the loot-type default, else nothing. -/
def frontIconChainClaimed (th : IconTheme) (node : CardNode) : Option Str :=
  match firstVariant node with
  | some (v, _) => List.lookup v th.frontDeckIcons
  | none =>
    match node.loot with
    | some loot =>
      List.lookup (loot.lootType.getD "ability".toList) th.lootFrontDefaults
    | none => none

/-- The front-icon default chain as amended: a loot-kind card whose
school is one of attack/defense/spell/utility gets that school glyph
before the loot-type default is consulted; a typed variant gets the
deck-level default; otherwise nothing. -/
def frontIconChainAmended (th : IconTheme) (node : CardNode) : Option Str :=
  match node.loot with
  | some loot =>
    (match (match loot.school with
            | some s => if s.isEmpty then none else school_icon_map s
            | none => none) with
     | some g => some g
     | none =>
       List.lookup (loot.lootType.getD "ability".toList) th.lootFrontDefaults)
  | none =>
    match firstVariant node with
    | some (v, _) => List.lookup v th.frontDeckIcons
    | none => none

/-- A loot card node of loot type `weapon` with school `attack` and no
explicit front-icon key anywhere. -/
def lootSchoolNode : CardNode :=
  { typeAttr := none, costAttr := none, schoolAttr := none,
    slotAttr := none, klassAttr := none, frontIconAttr := none,
    loot := some { lootType := some "weapon".toList, cost := none,
                   school := some "attack".toList, slot := none,
                   klass := none, front_icon := none },
    children := [] }

/-- A theme whose loot-type defaults map `weapon` to a dagger glyph. -/
def weaponTheme : IconTheme :=
  { typeIcons := [], frontDeckIcons := [], backDeckIcons := [],
    lootFrontDefaults := [("weapon".toList, "🗡".toList)],
    frontBiomeIcons := [] }

/-- The page/grid configuration constants consumed by `render_pdf`
(config.py), gathered as explicit inputs so that the layout
computation can be stated for any values. -/
structure RenderConfig where
  pageW : ℚ
  pageH : ℚ
  cardW : ℚ
  cardH : ℚ
  gridCols : ℕ
  gridRows : ℕ
  marginLeft : ℚ
  marginRight : ℚ
  marginY : ℚ
  gapX : ℚ
  gapY : ℚ
  deriving DecidableEq

/-- The values of config.py: A4 (210 mm by 297 mm), 62 mm by 87 mm
cards, a 3 by 3 grid, 10 mm margins and 4 mm gaps. -/
def defaultConfig : RenderConfig :=
  { pageW := 210 * mmQ, pageH := 297 * mmQ, cardW := CARD_W,
    cardH := CARD_H, gridCols := 3, gridRows := 3,
    marginLeft := 10 * mmQ, marginRight := 10 * mmQ, marginY := 10 * mmQ,
    gapX := 4 * mmQ, gapY := 4 * mmQ }

/-- `gap_x` (render.py line 388): zero in zero-gap mode. -/
def gapXv (cfg : RenderConfig) (zeroGaps : Bool) : ℚ :=
  if zeroGaps then 0 else cfg.gapX

/-- `gap_y` (render.py line 389). -/
def gapYv (cfg : RenderConfig) (zeroGaps : Bool) : ℚ :=
  if zeroGaps then 0 else cfg.gapY

/-- `grid_w` (render.py line 391). -/
def grid_w (cfg : RenderConfig) (zg : Bool) : ℚ :=
  cfg.gridCols * cfg.cardW + ((cfg.gridCols : ℚ) - 1) * gapXv cfg zg

/-- `grid_h` (render.py line 392). -/
def grid_h (cfg : RenderConfig) (zg : Bool) : ℚ :=
  cfg.gridRows * cfg.cardH + ((cfg.gridRows : ℚ) - 1) * gapYv cfg zg

/-- `start_x` (render.py line 394): the grid is centered
horizontally. -/
def start_x (cfg : RenderConfig) (zg : Bool) : ℚ :=
  (cfg.pageW - grid_w cfg zg) / 2

/-- `start_y` (render.py line 407): the grid top sits a fixed margin
below the page top. -/
def start_y (cfg : RenderConfig) (zg : Bool) : ℚ :=
  cfg.pageH - cfg.marginY - grid_h cfg zg

/-- `cards_per_page` (render.py line 412). -/
def cards_per_page (cfg : RenderConfig) : ℕ := cfg.gridCols * cfg.gridRows

/-- `total_pages` (render.py line 413):
`max(1, math.ceil(len(cards) / cards_per_page))`, with the ceiling in
integer form. -/
def total_pages (cfg : RenderConfig) (n : ℕ) : ℕ :=
  max 1 ((n + cards_per_page cfg - 1) / cards_per_page cfg)

/-- The x coordinate of the front cell at grid position `pos`
(render.py lines 424-426): column `pos % cols`. -/
def frontCellX (cfg : RenderConfig) (zg : Bool) (pos : ℕ) : ℚ :=
  start_x cfg zg + (pos % cfg.gridCols : ℕ) * (cfg.cardW + gapXv cfg zg)

/-- The y coordinate of the cell at grid position `pos`
(render.py lines 425-427 and 440-444, identical in both loops): row
`pos / cols` counted from the top. -/
def cellY (cfg : RenderConfig) (zg : Bool) (pos : ℕ) : ℚ :=
  start_y cfg zg
    + ((cfg.gridRows : ℚ) - 1 - (pos / cfg.gridCols : ℕ))
      * (cfg.cardH + gapYv cfg zg)

/-- The x coordinate of the back cell at grid position `pos`
(render.py lines 439-443): the mirrored column `cols - 1 - col`. -/
def backCellX (cfg : RenderConfig) (zg : Bool) (pos : ℕ) : ℚ :=
  start_x cfg zg
    + ((cfg.gridCols : ℚ) - 1 - (pos % cfg.gridCols : ℕ))
      * (cfg.cardW + gapXv cfg zg)

/-- The grid position in the same row whose column is the mirror
`cols - 1 - col`. -/
def mirrorPos (cfg : RenderConfig) (pos : ℕ) : ℕ :=
  (pos / cfg.gridCols) * cfg.gridCols
    + (cfg.gridCols - 1 - pos % cfg.gridCols)

/-- One front/back page pair of `render_pdf` (render.py lines 415-455):
per grid cell, the card drawn on the front (none beyond the card
count: no front is drawn there) and on the back (none is the
empty-back placeholder). -/
structure PagePair where
  fronts : List (Option Card)
  backs : List (Option Card)
  deriving DecidableEq

/-- The page pair at index `page` (render.py lines 419-448). -/
def mkPagePair (cfg : RenderConfig) (cards : List Card) (page : ℕ) :
    PagePair :=
  { fronts := (List.range (cards_per_page cfg)).map
      (fun pos =>
        if page * cards_per_page cfg + pos
            < min cards.length (page * cards_per_page cfg + cards_per_page cfg)
        then cards[page * cards_per_page cfg + pos]?
        else none),
    backs := (List.range (cards_per_page cfg)).map
      (fun pos =>
        if page * cards_per_page cfg + pos < cards.length
        then cards[page * cards_per_page cfg + pos]?
        else none) }

/-- The fatal layout message of render.py line 410 (the original text
reads "doesnt" with an apostrophe). -/
def layoutErrorMsg : Str :=
  ("Grid doesnt fit on page vertically with current settings."
    ++ " Adjust margins/gaps or card size.").toList

/-- The page-level behaviour of `render_pdf` (render.py lines 375-457):
the vertical-fit check of lines 409-410 aborts with a `ValueError`
before any page is emitted; otherwise the page pairs are emitted in
order and the document is saved.  Drawing inside each cell is the
per-cell content recorded in `PagePair`. -/
def render_pdf (cfg : RenderConfig) (cards : List Card) (zeroGaps : Bool) :
    Except Str (List PagePair) :=
  if start_y cfg zeroGaps < 0 then Except.error layoutErrorMsg
  else
    Except.ok
      ((List.range (total_pages cfg cards.length)).map (mkPagePair cfg cards))

/-- A configuration whose cards are too tall for the page: the grid
cannot fit vertically. -/
def tallConfig : RenderConfig := { defaultConfig with cardH := 300 * mmQ }

/-- The invariant maintained for the line under construction in
`wrap_text`: it is empty, a single word, or measures within the limit. -/
def fitCur (meas : Str → ℚ) (maxW : ℚ) (cur : List Str) : Prop :=
  cur = [] ∨ (∃ w, cur = [w]) ∨ meas (joinSpace cur) ≤ maxW

/-- A word as produced by Python's whitespace `split()`: nonempty and
containing no whitespace character. -/
def goodWord (w : Str) : Prop := w ≠ [] ∧ ∀ c ∈ w, pySpace c = false

lemma pySplitAux_good (s : Str) :
    ∀ acc : Str, (∀ c ∈ acc, pySpace c = false) →
      ∀ w ∈ pySplitAux s acc, goodWord w := by
  induction s with
  | nil =>
    intro acc hacc w hw
    by_cases ha : acc = []
    · simp [pySplitAux, ha] at hw
    · rw [pySplitAux, if_neg ha] at hw
      rcases List.mem_singleton.mp hw with rfl
      refine ⟨by simpa using ha, ?_⟩
      intro c hc
      exact hacc c (List.mem_reverse.mp hc)
  | cons c rest ih =>
    intro acc hacc w hw
    rw [pySplitAux] at hw
    by_cases hc : pySpace c
    · rw [if_pos hc] at hw
      by_cases ha : acc = []
      · rw [if_pos ha] at hw
        exact ih [] (by simp) w hw
      · rw [if_neg ha] at hw
        rcases List.mem_cons.mp hw with rfl | hw
        · refine ⟨by simpa using ha, ?_⟩
          intro d hd
          exact hacc d (List.mem_reverse.mp hd)
        · exact ih [] (by simp) w hw
    · rw [if_neg hc] at hw
      refine ih (c :: acc) ?_ w hw
      intro d hd
      rcases List.mem_cons.mp hd with rfl | hd
      · simpa using hc
      · exact hacc d hd

lemma pySplit_good (s : Str) : ∀ w ∈ pySplit s, goodWord w :=
  pySplitAux_good s [] (by simp)

lemma pySplitAux_append_sep (sep : Char) (hsep : pySpace sep = true) (b : Str) :
    ∀ (a acc : Str),
      pySplitAux (a ++ sep :: b) acc = pySplitAux a acc ++ pySplit b := by
  intro a
  induction a with
  | nil =>
    intro acc
    by_cases ha : acc = []
    · simp [pySplitAux, pySplit, ha, hsep]
    · simp [pySplitAux, pySplit, ha, hsep]
  | cons c a ih =>
    intro acc
    by_cases hc : pySpace c
    · by_cases ha : acc = []
      · simp only [List.cons_append, pySplitAux, hc, if_true, ha, ite_true]
        exact ih []
      · simp only [List.cons_append, pySplitAux, hc, if_true, ha, ite_false,
          if_neg ha, List.append_eq]
        rw [ih []]
    · simp only [List.cons_append, pySplitAux, hc, if_false]
      exact ih (c :: acc)

lemma pySplit_append_sep (sep : Char) (hsep : pySpace sep = true)
    (a b : Str) : pySplit (a ++ sep :: b) = pySplit a ++ pySplit b :=
  pySplitAux_append_sep sep hsep b a []

lemma pySplitAux_no_space (w : Str) (hw : ∀ c ∈ w, pySpace c = false) :
    ∀ (s acc : Str), pySplitAux (w ++ s) acc = pySplitAux s (w.reverse ++ acc) := by
  induction w with
  | nil => intro s acc; simp
  | cons c w ih =>
    intro s acc
    have hc : pySpace c = false := hw c (by simp)
    have hw' : ∀ d ∈ w, pySpace d = false := fun d hd => hw d (by simp [hd])
    simp only [List.cons_append, pySplitAux, hc, Bool.false_eq_true, if_false,
      List.append_eq]
    rw [ih hw' s (c :: acc)]
    simp

lemma pySplit_single (w : Str) (h : goodWord w) : pySplit w = [w] := by
  have := pySplitAux_no_space w h.2 [] []
  simp only [List.append_nil] at this
  rw [pySplit, this, pySplitAux]
  have : w.reverse ≠ [] := by simpa using h.1
  rw [if_neg this, List.reverse_reverse]

lemma pySplit_all_space (s : Str) (h : ∀ c ∈ s, pySpace c = true) :
    pySplit s = [] := by
  induction s with
  | nil => rfl
  | cons c rest ih =>
    have hc : pySpace c = true := h c (by simp)
    have : pySplit (c :: rest) = pySplit rest := by
      simp [pySplit, pySplitAux, hc]
    rw [this]
    exact ih fun d hd => h d (by simp [hd])

lemma pyStrip_eq_nil_iff (s : Str) :
    pyStrip s = [] ↔ ∀ c ∈ s, pySpace c = true := by
  constructor
  · intro h c hc
    rw [pyStrip, List.reverse_eq_nil_iff, List.dropWhile_eq_nil_iff] at h
    conv at hc => rw [← List.takeWhile_append_dropWhile pySpace s]
    rcases List.mem_append.mp hc with hc | hc
    · exact List.mem_takeWhile_imp hc
    · exact h c (List.mem_reverse.mpr hc)
  · intro h
    have : s.dropWhile pySpace = [] := List.dropWhile_eq_nil_iff.mpr h
    simp [pyStrip, this]

lemma pyStrip_eq_self (s : Str)
    (h1 : ∃ c t, s = c :: t ∧ pySpace c = false)
    (h2 : ∃ c t, s.reverse = c :: t ∧ pySpace c = false) : pyStrip s = s := by
  obtain ⟨c, t, hs, hc⟩ := h1
  obtain ⟨c', t', hs', hc'⟩ := h2
  have d1 : s.dropWhile pySpace = s := by
    rw [hs, List.dropWhile_cons, hc]; simp
  have d2 : s.reverse.dropWhile pySpace = s.reverse := by
    rw [hs', List.dropWhile_cons, hc']; simp
  rw [pyStrip, d1, d2, List.reverse_reverse]

lemma joinSep_cons (sep : Char) (p : Str) (ps : List Str) (h : ps ≠ []) :
    joinSep sep (p :: ps) = p ++ sep :: joinSep sep ps := by
  cases ps with
  | nil => exact absurd rfl h
  | cons q ps => rfl

lemma pySplit_joinSep_flat (sep : Char) (hsep : pySpace sep = true) :
    ∀ parts : List Str, pySplit (joinSep sep parts) = parts.flatMap pySplit := by
  intro parts
  induction parts with
  | nil => rfl
  | cons p ps ih =>
    cases ps with
    | nil => simp [joinSep]
    | cons q ps' =>
      rw [joinSep_cons sep p (q :: ps') (by simp),
        pySplit_append_sep sep hsep, ih]
      simp

lemma joinSep_head (sep : Char) (ws : List Str) (hne : ws ≠ [])
    (h : ∀ w ∈ ws, goodWord w) :
    ∃ c t, joinSep sep ws = c :: t ∧ pySpace c = false := by
  cases ws with
  | nil => exact absurd rfl hne
  | cons w ws =>
    have hw := h w (by simp)
    obtain ⟨c, t, rfl⟩ : ∃ c t, w = c :: t := by
      cases w with
      | nil => exact absurd rfl hw.1
      | cons c t => exact ⟨c, t, rfl⟩
    have hc : pySpace c = false := hw.2 c (by simp)
    cases ws with
    | nil => exact ⟨c, t, rfl, hc⟩
    | cons q ps => exact ⟨c, t ++ sep :: joinSep sep (q :: ps), rfl, hc⟩

lemma joinSep_reverse_head (sep : Char) (ws : List Str) (hne : ws ≠ [])
    (h : ∀ w ∈ ws, goodWord w) :
    ∃ c t, (joinSep sep ws).reverse = c :: t ∧ pySpace c = false := by
  induction ws with
  | nil => exact absurd rfl hne
  | cons w ws ih =>
    cases ws with
    | nil =>
      have hw := h w (by simp)
      obtain ⟨c, t, hct⟩ : ∃ c t, w.reverse = c :: t := by
        cases hrev : w.reverse with
        | nil => exact absurd (by simpa using hrev) hw.1
        | cons c t => exact ⟨c, t, rfl⟩
      have hcw : c ∈ w := List.mem_reverse.mp (hct ▸ List.mem_cons_self c t)
      exact ⟨c, t, by simpa [joinSep] using hct, hw.2 c hcw⟩
    | cons q ps =>
      obtain ⟨c, t, hct, hc⟩ :=
        ih (by simp) (fun v hv => h v (List.mem_cons_of_mem w hv))
      refine ⟨c, t ++ [sep] ++ w.reverse, ?_, hc⟩
      rw [joinSep_cons sep w (q :: ps) (by simp), List.reverse_append,
        List.reverse_cons, hct]
      simp

lemma pyStrip_joinSep (sep : Char) (ws : List Str) (hne : ws ≠ [])
    (h : ∀ w ∈ ws, goodWord w) :
    pyStrip (joinSep sep ws) = joinSep sep ws ∧ joinSep sep ws ≠ [] := by
  have h1 := joinSep_head sep ws hne h
  have h2 := joinSep_reverse_head sep ws hne h
  refine ⟨pyStrip_eq_self _ h1 h2, ?_⟩
  obtain ⟨c, t, hct, -⟩ := h1
  simp [hct]

lemma flatMap_pySplit_good (ws : List Str) (h : ∀ w ∈ ws, goodWord w) :
    ws.flatMap pySplit = ws := by
  induction ws with
  | nil => rfl
  | cons w ws ih =>
    rw [List.flatMap_cons, pySplit_single w (h w (by simp)),
      ih (fun v hv => h v (List.mem_cons_of_mem w hv))]
    rfl

lemma pySplit_joinSpace_good (ws : List Str) (h : ∀ w ∈ ws, goodWord w) :
    pySplit (joinSpace ws) = ws := by
  rw [joinSpace, pySplit_joinSep_flat ' ' (by decide), flatMap_pySplit_good ws h]

lemma splitNl_ne_nil (s : Str) : splitNl s ≠ [] := by
  cases s with
  | nil => simp [splitNl]
  | cons c rest =>
    rw [splitNl]
    by_cases hc : c = '\n'
    · simp [hc]
    · rw [if_neg hc]
      cases h : splitNl rest <;> simp

lemma joinNl_splitNl (s : Str) : joinSep '\n' (splitNl s) = s := by
  induction s with
  | nil => rfl
  | cons c rest ih =>
    rw [splitNl]
    obtain ⟨s0, ss, h⟩ : ∃ s0 ss, splitNl rest = s0 :: ss := by
      cases h : splitNl rest with
      | nil => exact absurd h (splitNl_ne_nil rest)
      | cons s0 ss => exact ⟨s0, ss, rfl⟩
    by_cases hc : c = '\n'
    · subst hc
      rw [if_pos rfl, joinSep_cons '\n' [] (splitNl rest) (splitNl_ne_nil rest), ih]
      rfl
    · rw [if_neg hc, h]
      rw [h] at ih
      cases ss with
      | nil =>
        have : (s0 : Str) = rest := ih
        simp [joinSep, this]
      | cons q ps =>
        rw [joinSep_cons '\n' (c :: s0) (q :: ps) (by simp), List.cons_append]
        exact congrArg (fun t => c :: t) ih

lemma pySplit_eq_flat_splitNl (s : Str) :
    pySplit s = (splitNl s).flatMap pySplit := by
  conv_lhs => rw [← joinNl_splitNl s]
  exact pySplit_joinSep_flat '\n' (by decide) (splitNl s)

lemma pyStrip_joinSpace (ws : List Str) (hne : ws ≠ [])
    (h : ∀ w ∈ ws, goodWord w) :
    pyStrip (joinSpace ws) = joinSpace ws ∧ joinSpace ws ≠ [] :=
  pyStrip_joinSep ' ' ws hne h

lemma wrapStep_eq (meas : Str → ℚ) (maxW : ℚ) (lines cur : List Str) (w : Str)
    (hcur : ∀ v ∈ cur, goodWord v) (hw : goodWord w) :
    wrapStep meas maxW (lines, cur) w =
      if meas (joinSpace (cur ++ [w])) ≤ maxW then (lines, cur ++ [w])
      else if cur ≠ [] then (lines ++ [joinSpace cur], [w])
      else (lines ++ [w], cur) := by
  have hgood : ∀ v ∈ cur ++ [w], goodWord v := by
    intro v hv
    rcases List.mem_append.mp hv with hv | hv
    · exact hcur v hv
    · rcases List.mem_singleton.mp hv with rfl
      exact hw
  obtain ⟨hstrip, hjoin⟩ := pyStrip_joinSpace (cur ++ [w]) (by simp) hgood
  rw [wrapStep]
  simp only [hstrip]
  rw [if_neg hjoin]

lemma wrapStep_fold_spec (meas : Str → ℚ) (maxW : ℚ) :
    ∀ (ws lines cur : List Str),
      (∀ w ∈ ws, goodWord w) → (∀ w ∈ cur, goodWord w) →
      fitCur meas maxW cur →
      (∀ w ∈ (List.foldl (wrapStep meas maxW) (lines, cur) ws).2, goodWord w) ∧
      fitCur meas maxW (List.foldl (wrapStep meas maxW) (lines, cur) ws).2 ∧
      (∀ w ∈ (List.foldl (wrapStep meas maxW) (lines, cur) ws).2,
        w ∈ cur ∨ w ∈ ws) ∧
      ((List.foldl (wrapStep meas maxW) (lines, cur) ws).1.flatMap pySplit
          ++ (List.foldl (wrapStep meas maxW) (lines, cur) ws).2
        = lines.flatMap pySplit ++ cur ++ ws) ∧
      (∀ l ∈ (List.foldl (wrapStep meas maxW) (lines, cur) ws).1,
        l ∈ lines ∨
          (l ≠ [] ∧ ((∃ w, (w ∈ cur ∨ w ∈ ws) ∧ l = w) ∨ meas l ≤ maxW))) := by
  intro ws
  induction ws with
  | nil =>
    intro lines cur hws hcur hfit
    refine ⟨hcur, hfit, fun w hw => Or.inl hw, by simp, fun l hl => Or.inl hl⟩
  | cons w ws' ih =>
    intro lines cur hws hcur hfit
    have hgw : goodWord w := hws w (by simp)
    have hws' : ∀ v ∈ ws', goodWord v :=
      fun v hv => hws v (List.mem_cons_of_mem w hv)
    have hcurw : ∀ v ∈ cur ++ [w], goodWord v := by
      intro v hv
      rcases List.mem_append.mp hv with hv | hv
      · exact hcur v hv
      · rcases List.mem_singleton.mp hv with rfl
        exact hgw
    rw [List.foldl_cons, wrapStep_eq meas maxW lines cur w hcur hgw]
    by_cases hfitw : meas (joinSpace (cur ++ [w])) ≤ maxW
    · rw [if_pos hfitw]
      obtain ⟨g1, g2, g3, g4, g5⟩ :=
        ih lines (cur ++ [w]) hws' hcurw (Or.inr (Or.inr hfitw))
      refine ⟨g1, g2, ?_, ?_, ?_⟩
      · intro v hv
        rcases g3 v hv with hv' | hv'
        · rcases List.mem_append.mp hv' with hv'' | hv''
          · exact Or.inl hv''
          · rcases List.mem_singleton.mp hv'' with rfl
            exact Or.inr (by simp)
        · exact Or.inr (List.mem_cons_of_mem w hv')
      · rw [g4]
        simp
      · intro l hl
        rcases g5 l hl with hl' | ⟨hne, hl'⟩
        · exact Or.inl hl'
        · refine Or.inr ⟨hne, ?_⟩
          rcases hl' with ⟨v, hv, hveq⟩ | hl'
          · refine Or.inl ⟨v, ?_, hveq⟩
            rcases hv with hv | hv
            · rcases List.mem_append.mp hv with hv' | hv'
              · exact Or.inl hv'
              · rcases List.mem_singleton.mp hv' with rfl
                exact Or.inr (by simp)
            · exact Or.inr (List.mem_cons_of_mem w hv)
          · exact Or.inr hl'
    · rw [if_neg hfitw]
      by_cases hcne : cur ≠ []
      · rw [if_pos hcne]
        obtain ⟨g1, g2, g3, g4, g5⟩ :=
          ih (lines ++ [joinSpace cur]) [w] hws'
            (by intro v hv; rcases List.mem_singleton.mp hv with rfl; exact hgw)
            (Or.inr (Or.inl ⟨w, rfl⟩))
        have hjcur : pySplit (joinSpace cur) = cur :=
          pySplit_joinSpace_good cur hcur
        have hjne : joinSpace cur ≠ [] :=
          (pyStrip_joinSpace cur hcne hcur).2
        refine ⟨g1, g2, ?_, ?_, ?_⟩
        · intro v hv
          rcases g3 v hv with hv' | hv'
          · rcases List.mem_singleton.mp hv' with rfl
            exact Or.inr (by simp)
          · exact Or.inr (List.mem_cons_of_mem w hv')
        · rw [g4, List.flatMap_append]
          simp [hjcur]
        · intro l hl
          rcases g5 l hl with hl' | ⟨hne, hl'⟩
          · rcases List.mem_append.mp hl' with hl'' | hl''
            · exact Or.inl hl''
            · rcases List.mem_singleton.mp hl'' with rfl
              refine Or.inr ⟨hjne, ?_⟩
              rcases hfit with rfl | ⟨w0, rfl⟩ | hfit'
              · exact absurd rfl hcne
              · exact Or.inl ⟨w0, Or.inl (by simp), rfl⟩
              · exact Or.inr hfit'
          · refine Or.inr ⟨hne, ?_⟩
            rcases hl' with ⟨v, hv, hveq⟩ | hl'
            · refine Or.inl ⟨v, ?_, hveq⟩
              rcases hv with hv | hv
              · rcases List.mem_singleton.mp hv with rfl
                exact Or.inr (by simp)
              · exact Or.inr (List.mem_cons_of_mem w hv)
            · exact Or.inr hl'
      · rw [if_neg hcne]
        have hcnil : cur = [] := by simpa using hcne
        subst hcnil
        obtain ⟨g1, g2, g3, g4, g5⟩ :=
          ih (lines ++ [w]) [] hws' (by simp) (Or.inl rfl)
        refine ⟨g1, g2, ?_, ?_, ?_⟩
        · intro v hv
          rcases g3 v hv with hv' | hv'
          · exact absurd hv' (List.not_mem_nil v)
          · exact Or.inr (List.mem_cons_of_mem w hv')
        · rw [g4, List.flatMap_append]
          simp [pySplit_single w hgw]
        · intro l hl
          rcases g5 l hl with hl' | ⟨hne, hl'⟩
          · rcases List.mem_append.mp hl' with hl'' | hl''
            · exact Or.inl hl''
            · rcases List.mem_singleton.mp hl'' with rfl
              exact Or.inr ⟨hgw.1, Or.inl ⟨l, Or.inr (by simp), rfl⟩⟩
          · refine Or.inr ⟨hne, ?_⟩
            rcases hl' with ⟨v, hv, hveq⟩ | hl'
            · refine Or.inl ⟨v, ?_, hveq⟩
              rcases hv with hv | hv
              · exact absurd hv (List.not_mem_nil v)
              · exact Or.inr (List.mem_cons_of_mem w hv)
            · exact Or.inr hl'

lemma wrapPara_spec (meas : Str → ℚ) (maxW : ℚ) (lines : List Str) (para : Str) :
    (wrapPara meas maxW lines para).flatMap pySplit
      = lines.flatMap pySplit ++ pySplit para ∧
    (∀ l ∈ wrapPara meas maxW lines para,
      l ∈ lines ∨ (pyStrip para = [] ∧ l = []) ∨
        (l ≠ [] ∧ (l ∈ pySplit para ∨ meas l ≤ maxW))) := by
  rw [wrapPara]
  by_cases hp : pyStrip para = []
  · rw [if_pos hp]
    have hps : pySplit para = [] :=
      pySplit_all_space para ((pyStrip_eq_nil_iff para).mp hp)
    constructor
    · rw [List.flatMap_append, hps]
      simp [pySplit, pySplitAux]
    · intro l hl
      rcases List.mem_append.mp hl with hl | hl
      · exact Or.inl hl
      · rcases List.mem_singleton.mp hl with rfl
        exact Or.inr (Or.inl ⟨hp, rfl⟩)
  · rw [if_neg hp]
    obtain ⟨g1, g2, g3, g4, g5⟩ :=
      wrapStep_fold_spec meas maxW (pySplit para) lines [] (pySplit_good para)
        (by simp) (Or.inl rfl)
    by_cases h2 :
        (List.foldl (wrapStep meas maxW) (lines, []) (pySplit para)).2 ≠ []
    · rw [if_pos h2]
      have hjoin :=
        pySplit_joinSpace_good
          (List.foldl (wrapStep meas maxW) (lines, []) (pySplit para)).2 g1
      constructor
      · rw [List.flatMap_append]
        have hsingle :
            ([joinSpace
              (List.foldl (wrapStep meas maxW) (lines, []) (pySplit para)).2]
                : List Str).flatMap pySplit
              = (List.foldl (wrapStep meas maxW) (lines, []) (pySplit para)).2 := by
          simp [hjoin]
        rw [hsingle]
        simpa using g4
      · intro l hl
        rcases List.mem_append.mp hl with hl | hl
        · rcases g5 l hl with hl' | ⟨hne, hl'⟩
          · exact Or.inl hl'
          · refine Or.inr (Or.inr ⟨hne, ?_⟩)
            rcases hl' with ⟨v, hv, hveq⟩ | hl'
            · rcases hv with hv | hv
              · exact absurd hv (List.not_mem_nil v)
              · exact Or.inl (hveq ▸ hv)
            · exact Or.inr hl'
        · rcases List.mem_singleton.mp hl with rfl
          have hne :=
            (pyStrip_joinSpace _ h2 g1).2
          refine Or.inr (Or.inr ⟨hne, ?_⟩)
          rcases g2 with hc | ⟨w0, hc⟩ | hc
          · exact absurd hc h2
          · rw [hc]
            have hw0 : w0 ∈ (List.foldl (wrapStep meas maxW) (lines, [])
                (pySplit para)).2 := by simp [hc]
            rcases g3 w0 hw0 with hv | hv
            · exact absurd hv (List.not_mem_nil w0)
            · exact Or.inl (by simpa [joinSpace, joinSep] using hv)
          · exact Or.inr hc
    · rw [if_neg h2]
      have h2' : (List.foldl (wrapStep meas maxW) (lines, []) (pySplit para)).2
          = [] := by simpa using h2
      constructor
      · rw [h2', List.append_nil] at g4
        simpa using g4
      · intro l hl
        rcases g5 l hl with hl' | ⟨hne, hl'⟩
        · exact Or.inl hl'
        · refine Or.inr (Or.inr ⟨hne, ?_⟩)
          rcases hl' with ⟨v, hv, hveq⟩ | hl'
          · rcases hv with hv | hv
            · exact absurd hv (List.not_mem_nil v)
            · exact Or.inl (hveq ▸ hv)
          · exact Or.inr hl'

lemma wrapStep_lines_shift (meas : Str → ℚ) (maxW : ℚ)
    (st : List Str × List Str) (w : Str) :
    wrapStep meas maxW st w
      = (st.1 ++ (wrapStep meas maxW ([], st.2) w).1,
         (wrapStep meas maxW ([], st.2) w).2) := by
  simp only [wrapStep]
  split_ifs <;> simp

lemma wrapStep_fold_lines_shift (meas : Str → ℚ) (maxW : ℚ) :
    ∀ (ws : List Str) (st : List Str × List Str),
      List.foldl (wrapStep meas maxW) st ws
        = (st.1 ++ (List.foldl (wrapStep meas maxW) ([], st.2) ws).1,
           (List.foldl (wrapStep meas maxW) ([], st.2) ws).2) := by
  intro ws
  induction ws with
  | nil => intro st; simp
  | cons w ws' ih =>
    intro st
    rw [List.foldl_cons, List.foldl_cons]
    rw [ih (wrapStep meas maxW st w), ih (wrapStep meas maxW ([], st.2) w)]
    rw [wrapStep_lines_shift meas maxW st w]
    simp [List.append_assoc]

lemma wrapPara_lines_shift (meas : Str → ℚ) (maxW : ℚ)
    (lines : List Str) (para : Str) :
    wrapPara meas maxW lines para = lines ++ wrapPara meas maxW [] para := by
  rw [wrapPara, wrapPara]
  by_cases hp : pyStrip para = []
  · rw [if_pos hp, if_pos hp]
    simp
  · rw [if_neg hp, if_neg hp]
    rw [wrapStep_fold_lines_shift meas maxW (pySplit para) (lines, [])]
    split_ifs <;> simp

lemma wrapParas_foldl (meas : Str → ℚ) (maxW : ℚ) :
    ∀ (ps lines : List Str),
      List.foldl (wrapPara meas maxW) lines ps
        = lines ++ ps.flatMap (wrapPara meas maxW []) := by
  intro ps
  induction ps with
  | nil => intro lines; simp
  | cons p ps' ih =>
    intro lines
    rw [List.foldl_cons, ih, wrapPara_lines_shift, List.flatMap_cons]
    simp [List.append_assoc]

lemma flatMap_wrapPara_pySplit (meas : Str → ℚ) (maxW : ℚ) (ps : List Str) :
    (ps.flatMap (wrapPara meas maxW [])).flatMap pySplit
      = ps.flatMap pySplit := by
  induction ps with
  | nil => rfl
  | cons p ps' ih =>
    rw [List.flatMap_cons, List.flatMap_append, ih, List.flatMap_cons]
    congr 1
    simpa using (wrapPara_spec meas maxW [] p).1

lemma wrap_text_some_eq (meas : Str → ℚ) (maxW : ℚ) (t : Str) :
    wrap_text meas maxW (some t)
      = (splitNl (normalizeNewlines t)).flatMap (wrapPara meas maxW []) := by
  rw [wrap_text]
  rw [wrapParas_foldl meas maxW (splitNl (normalizeNewlines t)) []]
  simp

lemma countP_isEmpty_wrapPara (meas : Str → ℚ) (maxW : ℚ) (p : Str) :
    (wrapPara meas maxW [] p).countP (fun l => l.isEmpty)
      = if (pyStrip p).isEmpty then 1 else 0 := by
  by_cases hp : pyStrip p = []
  · rw [wrapPara, if_pos hp, hp]
    simp [List.countP, List.countP.go]
  · have hne : (pyStrip p).isEmpty = false := by
      simpa [List.isEmpty_iff] using hp
    rw [hne]
    simp only [Bool.false_eq_true, if_false]
    rw [List.countP_eq_zero]
    intro l hl
    rcases (wrapPara_spec meas maxW [] p).2 l hl with hl' | ⟨hp', -⟩ | ⟨hlne, -⟩
    · exact absurd hl' (List.not_mem_nil l)
    · exact absurd hp' hp
    · simpa [List.isEmpty_iff] using hlne

/-- C10: calling `wrap_text` with `text = None` returns exactly one empty
line (the singleton list containing the empty string) and raises no
error (render.py lines 24-32). -/
theorem wrap_text_none_eq (meas : Str → ℚ) (maxW : ℚ) :
    wrap_text meas maxW none = [[]] := rfl

/-- C5 (amended): joining the lines produced by `wrap_text` with single
spaces and splitting on whitespace yields exactly the
whitespace-separated word sequence of the input text after literal
backslash-n sequences have been normalized to newlines — no word is
dropped, duplicated, or reordered.  (The pre-normalization text can
have a different word sequence, see the counterexample.) -/
theorem wrap_text_words_preserved (meas : Str → ℚ) (maxW : ℚ) (t : Str) :
    pySplit (joinSpace (wrap_text meas maxW (some t)))
      = pySplit (normalizeNewlines t) := by
  rw [joinSpace, pySplit_joinSep_flat ' ' (by decide)]
  rw [wrap_text_some_eq, flatMap_wrapPara_pySplit]
  rw [← pySplit_eq_flat_splitNl]

/-- C5 counterexample: for the input text `a\nb` (a literal backslash
followed by `n` between two letters, a single whitespace-separated
word), the wrapper normalizes the escape to a newline and produces the
two words `a`, `b`, so rejoining does not reproduce the original
word sequence. -/
theorem wrap_text_words_cex :
    pySplit (joinSpace (wrap_text (fun s => (s.length : ℚ)) 100
        (some "a\\nb".toList)))
      ≠ pySplit "a\\nb".toList := by decide

/-- C6: every line produced by `wrap_text` measures within the limit,
except a line that is a single input word whose own measured width
exceeds the limit, emitted alone and unmodified (render.py
lines 35-51).  The hypothesis states that the measure of the empty
string is within the limit, as is the case for any real font metric. -/
theorem wrap_text_line_widths (meas : Str → ℚ) (maxW : ℚ) (t : Str)
    (hempty : meas [] ≤ maxW) :
    ∀ l ∈ wrap_text meas maxW (some t),
      meas l ≤ maxW ∨
        (l ∈ pySplit (normalizeNewlines t) ∧ maxW < meas l) := by
  intro l hl
  rw [wrap_text_some_eq] at hl
  obtain ⟨p, hp, hlp⟩ := List.mem_flatMap.mp hl
  have hspec := (wrapPara_spec meas maxW [] p).2 l hlp
  by_cases hm : meas l ≤ maxW
  · exact Or.inl hm
  · right
    refine ⟨?_, not_le.mp hm⟩
    rcases hspec with h | ⟨-, rfl⟩ | ⟨-, h | h⟩
    · exact absurd h (List.not_mem_nil l)
    · exact absurd hempty hm
    · rw [pySplit_eq_flat_splitNl]
      exact List.mem_flatMap.mpr ⟨p, hp, h⟩
    · exact absurd h hm

/-- Witness for C6 at a concrete input: with the length measure and
limit 3, the text `hi extraordinary` wraps so that the overlong word
`extraordinary` is emitted alone, and the theorem applies to it. -/
theorem wrap_text_line_widths_witness :
    (fun s : Str => (s.length : ℚ)) [] ≤ (3 : ℚ) ∧
    "extraordinary".toList ∈
      wrap_text (fun s : Str => (s.length : ℚ)) 3
        (some "hi extraordinary".toList) ∧
    ((fun s : Str => (s.length : ℚ)) "extraordinary".toList ≤ 3 ∨
      ("extraordinary".toList ∈
          pySplit (normalizeNewlines "hi extraordinary".toList) ∧
        (3 : ℚ) < (fun s : Str => (s.length : ℚ)) "extraordinary".toList)) :=
  ⟨by norm_num, by decide,
    wrap_text_line_widths (fun s : Str => (s.length : ℚ)) 3
      "hi extraordinary".toList (by norm_num) "extraordinary".toList
      (by decide)⟩

/-- C8: literal backslash-n sequences are normalized to real paragraph
breaks before wrapping; each paragraph wraps independently (the output
is the concatenation of each paragraph wrapped from an empty state); a
paragraph that strips to nothing yields exactly one empty output line;
and the number of empty output lines equals the number of blank
paragraphs, so blank lines are preserved and never collapsed. -/
theorem wrap_text_paragraph_structure (meas : Str → ℚ) (maxW : ℚ) (t : Str) :
    wrap_text meas maxW (some t)
        = (splitNl (normalizeNewlines t)).flatMap (wrapPara meas maxW []) ∧
      (∀ p, pyStrip p = [] → wrapPara meas maxW [] p = [[]]) ∧
      (wrap_text meas maxW (some t)).countP (fun l => l.isEmpty)
        = (splitNl (normalizeNewlines t)).countP (fun p => (pyStrip p).isEmpty) := by
  refine ⟨wrap_text_some_eq meas maxW t, ?_, ?_⟩
  · intro p hp
    rw [wrapPara, if_pos hp]
    rfl
  · rw [wrap_text_some_eq]
    induction splitNl (normalizeNewlines t) with
    | nil => rfl
    | cons p ps' ih =>
      rw [List.flatMap_cons, List.countP_append, ih, List.countP_cons,
        countP_isEmpty_wrapPara]
      by_cases hb : (pyStrip p).isEmpty <;> simp [hb, Nat.add_comm]

/-- C1 counterexample: for `negBudgetMonster` the effective displayed
value is -1 ≤ 0, yet a cost glyph is drawn on the front (only a zero
value is suppressed) and a cost numeral is drawn on the back (which
tests the raw cost field 5, not the effective value). -/
theorem cost_suppression_cex :
    display_cost negBudgetMonster ≤ 0 ∧
    (draw_card_ops emptyTheme lenMeas noImg negBudgetMonster CARD_W CARD_H
        false).any isCostGlyph = true ∧
    (draw_back_ops emptyTheme noImg (some negBudgetMonster)
        false).any isBackCostNumeral = true := by decide

set_option maxHeartbeats 2000000 in
/-- C1 (amended): the front emits a cost glyph exactly when the
effective displayed value (loot budget substituting for cost on
monster cards) is nonzero, and the back emits a cost numeral exactly
when the raw cost field is nonzero — the back does not use the
effective-value rule, and negative values are emitted, not
suppressed. -/
theorem cost_glyph_gating (th : IconTheme) (meas : Str → ℚ)
    (imgExists : Str → Bool) (card : Card) (w h : ℚ) (color : Bool) :
    ((draw_card_ops th meas imgExists card w h color).any isCostGlyph = true
      ↔ display_cost card ≠ 0) ∧
    ((draw_back_ops th imgExists (some card) color).any isBackCostNumeral
        = true
      ↔ card.cost ≠ 0) := by
  have hbody : ∀ M : List Str,
      (M.map DrawOp.bodyLine).any isCostGlyph = false := by
    intro M
    induction M with
    | nil => rfl
    | cons a M ih => simp [ih, isCostGlyph]
  constructor
  · simp only [draw_card_ops, List.any_append, List.any_cons, List.any_nil,
      isCostGlyph, Bool.or_eq_true, Bool.or_false, Bool.false_or, hbody]
    split_ifs <;> simp_all [isCostGlyph]
  · simp only [draw_back_ops]
    rcases hch : (back_icon_choice th imgExists (some card)).1 with _ | p <;>
      rcases hbl : List.lookup (card.biome.getD []) th.frontBiomeIcons
        with _ | g <;>
      simp only [hch, hbl, List.any_append, List.any_cons, List.any_nil,
        isBackCostNumeral, Bool.or_eq_true, Bool.or_false, Bool.false_or] <;>
      split_ifs <;> simp_all [isBackCostNumeral]

/-- C2 counterexample: for `budgetMonster` (monster, cost 5, loot
budget 3) the effective value is 3, but the back draws the numeral 5 —
the raw cost field — and not 3. -/
theorem back_numeral_effective_cex :
    display_cost budgetMonster = 3 ∧ budgetMonster.cost = 5 ∧
    DrawOp.backCostNumeral 5 ∈
      draw_back_ops emptyTheme noImg (some budgetMonster) false ∧
    DrawOp.backCostNumeral 3 ∉
      draw_back_ops emptyTheme noImg (some budgetMonster) false := by decide

/-- C2 (amended): the large centered numeral on the back always shows
the raw cost field and is suppressed exactly when that field is zero,
even for monster cards carrying a loot budget (the front's
effective-value substitution is not applied on the back). -/
theorem back_numeral_value (th : IconTheme) (imgExists : Str → Bool)
    (card : Card) (color : Bool) (v : Int) :
    DrawOp.backCostNumeral v ∈ draw_back_ops th imgExists (some card) color
      ↔ v = card.cost ∧ card.cost ≠ 0 := by
  simp only [draw_back_ops]
  rcases hch : (back_icon_choice th imgExists (some card)).1 with _ | p <;>
    rcases hbl : List.lookup (card.biome.getD []) th.frontBiomeIcons
      with _ | g <;>
    simp only [hch, hbl, List.mem_append, List.mem_cons,
      List.mem_singleton] <;>
    split_ifs <;> simp_all

lemma ceil_div_nat (n d : ℕ) (hd : 0 < d) :
    ⌈(n : ℚ) / (d : ℚ)⌉₊ = (n + d - 1) / d := by
  have hdQ : (0 : ℚ) < (d : ℚ) := by exact_mod_cast hd
  rcases Nat.eq_zero_or_pos n with rfl | hn
  · rw [Nat.cast_zero, zero_div, Nat.ceil_zero,
      Nat.div_eq_of_lt (show 0 + d - 1 < d by omega)]
  · set q := (n + d - 1) / d with hq
    have hub : n ≤ q * d := by
      have h1 : n + d - 1 < (q + 1) * d := by
        rw [hq]
        exact (Nat.div_lt_iff_lt_mul hd).mp (Nat.lt_succ_self _)
      have h2 : (q + 1) * d = q * d + d := by ring
      omega
    refine le_antisymm ?_ ?_
    · rw [Nat.ceil_le, div_le_iff₀ hdQ]
      exact_mod_cast hub
    · rcases Nat.eq_zero_or_pos q with hq0 | hqpos
      · rw [hq0]
        exact Nat.zero_le _
      · obtain ⟨k, hk⟩ : ∃ k, q = k + 1 := ⟨q - 1, by omega⟩
        have hkd : k * d < n := by
          have h1 : q * d ≤ n + d - 1 := by
            rw [hq]
            exact Nat.div_mul_le_self _ _
          have h2 : q * d = k * d + d := by rw [hk]; ring
          omega
        have hlt : ((k : ℚ)) < (n : ℚ) / d := by
          rw [lt_div_iff₀ hdQ]
          exact_mod_cast hkd
        rw [hk]
        exact Nat.lt_ceil.mpr hlt

/-- C3 counterexample: with the config.py constants and an empty card
list, `render_pdf` emits one front/back page pair, not the
`ceil(0 / 9) = 0` pairs the claim requires. -/
theorem render_page_count_cex :
    render_pdf defaultConfig [] false
        = Except.ok [mkPagePair defaultConfig [] 0] ∧
    [mkPagePair defaultConfig [] 0].length = 1 ∧
    ⌈((([] : List Card).length : ℕ) : ℚ)
        / ((cards_per_page defaultConfig : ℕ) : ℚ)⌉₊ = 0 := by
  refine ⟨?_, rfl, by simp⟩
  rw [render_pdf,
    if_neg (by norm_num [start_y, grid_h, gapYv, defaultConfig, mmQ, CARD_H])]
  rfl

/-- C3 (amended): whenever the grid fits vertically, `render_pdf`
emits exactly `max(1, ceil(count / (cols*rows)))` front/back page
pairs — an empty card list still produces one page pair, not zero. -/
theorem render_page_count (cfg : RenderConfig) (cards : List Card)
    (zg : Bool) (hper : 0 < cards_per_page cfg)
    (hfit : 0 ≤ start_y cfg zg) :
    render_pdf cfg cards zg
      = Except.ok
          ((List.range (total_pages cfg cards.length)).map
            (mkPagePair cfg cards)) ∧
    ((List.range (total_pages cfg cards.length)).map
        (mkPagePair cfg cards)).length
      = max 1 ⌈(cards.length : ℚ) / (cards_per_page cfg : ℚ)⌉₊ := by
  refine ⟨by rw [render_pdf, if_neg (not_lt.mpr hfit)], ?_⟩
  rw [List.length_map, List.length_range, total_pages,
    ceil_div_nat cards.length (cards_per_page cfg) hper]

/-- Witness for C3 at a concrete input: ten cards on the 3 by 3 grid
produce two page pairs. -/
theorem render_page_count_witness :
    render_pdf defaultConfig (List.replicate 10 budgetMonster) false
      = Except.ok
          ((List.range (total_pages defaultConfig
              (List.replicate 10 budgetMonster).length)).map
            (mkPagePair defaultConfig (List.replicate 10 budgetMonster))) ∧
    ((List.range (total_pages defaultConfig
        (List.replicate 10 budgetMonster).length)).map
      (mkPagePair defaultConfig (List.replicate 10 budgetMonster))).length
      = max 1 ⌈((List.replicate 10 budgetMonster).length : ℚ)
          / (cards_per_page defaultConfig : ℚ)⌉₊ :=
  render_page_count defaultConfig (List.replicate 10 budgetMonster) false
    (by decide)
    (by norm_num [start_y, grid_h, gapYv, defaultConfig, mmQ, CARD_H])

/-- C4: the back cell at grid position `pos` sits at the integer
column `cols - 1 - col` (where `col = pos % cols`), which is exactly
the front cell of the same-row position with the mirrored column; the
y coordinate is unchanged. -/
theorem back_mirrors_front (cfg : RenderConfig) (zg : Bool) (pos : ℕ)
    (hcols : 0 < cfg.gridCols) :
    backCellX cfg zg pos
        = start_x cfg zg
          + ((cfg.gridCols - 1 - pos % cfg.gridCols : ℕ) : ℚ)
            * (cfg.cardW + gapXv cfg zg) ∧
    backCellX cfg zg pos = frontCellX cfg zg (mirrorPos cfg pos) ∧
    cellY cfg zg (mirrorPos cfg pos) = cellY cfg zg pos := by
  have hmod : pos % cfg.gridCols < cfg.gridCols := Nat.mod_lt pos hcols
  have hcast : ((cfg.gridCols - 1 - pos % cfg.gridCols : ℕ) : ℚ)
      = (cfg.gridCols : ℚ) - 1 - ((pos % cfg.gridCols : ℕ) : ℚ) := by
    have h1 : pos % cfg.gridCols ≤ cfg.gridCols - 1 := by omega
    rw [Nat.cast_sub h1, Nat.cast_sub (by omega : 1 ≤ cfg.gridCols)]
    norm_num
  have hm : mirrorPos cfg pos % cfg.gridCols
      = cfg.gridCols - 1 - pos % cfg.gridCols := by
    rw [mirrorPos, Nat.mul_comm, Nat.mul_add_mod]
    exact Nat.mod_eq_of_lt (by omega)
  have hd : mirrorPos cfg pos / cfg.gridCols = pos / cfg.gridCols := by
    rw [mirrorPos, Nat.mul_comm, Nat.mul_add_div hcols,
      Nat.div_eq_of_lt
        (show cfg.gridCols - 1 - pos % cfg.gridCols < cfg.gridCols by omega),
      Nat.add_zero]
  refine ⟨?_, ?_, ?_⟩
  · rw [backCellX, hcast]
  · rw [backCellX, frontCellX, hm, hcast]
  · rw [cellY, cellY, hd]

/-- Witness for C4 at a concrete input: position 5 of the 3 by 3 grid
(row 1, column 2) mirrors to column 0. -/
theorem back_mirrors_front_witness :
    backCellX defaultConfig false 5
        = start_x defaultConfig false
          + ((defaultConfig.gridCols - 1 - 5 % defaultConfig.gridCols : ℕ) : ℚ)
            * (defaultConfig.cardW + gapXv defaultConfig false) ∧
    backCellX defaultConfig false 5
        = frontCellX defaultConfig false (mirrorPos defaultConfig 5) ∧
    cellY defaultConfig false (mirrorPos defaultConfig 5)
      = cellY defaultConfig false 5 :=
  back_mirrors_front defaultConfig false 5 (by decide)

/-- C9: whenever the grid height exceeds the available vertical space
(`start_y < 0`), `render_pdf` fails with the fatal layout error raised
at render.py line 410, before any page pair is emitted and before any
output is produced. -/
theorem layout_infeasible_aborts (cfg : RenderConfig) (cards : List Card)
    (zg : Bool) (h : start_y cfg zg < 0) :
    render_pdf cfg cards zg = Except.error layoutErrorMsg ∧
    ∀ pages, render_pdf cfg cards zg ≠ Except.ok pages := by
  have he : render_pdf cfg cards zg = Except.error layoutErrorMsg := by
    rw [render_pdf, if_pos h]
  refine ⟨he, fun pages hc => ?_⟩
  rw [he] at hc
  exact Except.noConfusion hc

/-- Witness for C9 at a concrete input: 300 mm tall cards cannot fit
three rows on an A4 page, and rendering aborts with the layout
error. -/
theorem layout_infeasible_aborts_witness :
    start_y tallConfig false < 0 ∧
    render_pdf tallConfig [] false = Except.error layoutErrorMsg :=
  ⟨by norm_num [start_y, grid_h, gapYv, tallConfig, defaultConfig, mmQ],
    (layout_infeasible_aborts tallConfig [] false
      (by norm_num [start_y, grid_h, gapYv, tallConfig, defaultConfig,
        mmQ])).1⟩

/-- C7 counterexample: a loot card of loot type `weapon` with school
`attack` and no explicit front-icon key resolves to the in-code attack
glyph, not to the loot-type default the claimed chain requires. -/
theorem front_icon_chain_cex :
    (parseIconFields weaponTheme lootSchoolNode).2.1
        ≠ frontIconChainClaimed weaponTheme lootSchoolNode ∧
    (parseIconFields weaponTheme lootSchoolNode).2.1 = some "⚔️".toList ∧
    frontIconChainClaimed weaponTheme lootSchoolNode
      = some "🗡".toList := by decide

set_option maxHeartbeats 2000000 in
/-- C7 (amended): for a card node with no explicit front-icon key
(neither on the node, nor on its loot child, nor on a variant child),
the resolved front icon follows the chain: a loot-kind card first gets
the built-in school glyph (attack/defense/spell/utility), else its
loot-type default; a typed variant gets that variant's deck-level
default; otherwise no icon.  A card whose resolved front icon is falsy
draws no large icon — only the small header icon. -/
theorem front_icon_resolution_priority (th : IconTheme) (node : CardNode)
    (meas : Str → ℚ) (imgExists : Str → Bool) (card : Card) (w h : ℚ)
    (color : Bool)
    (h1 : node.frontIconAttr = none)
    (h2 : ∀ l, node.loot = some l → pyTruthy l.front_icon = false)
    (h3 : ∀ v fi, firstVariant node = some (v, fi) → pyTruthy fi = false) :
    (parseIconFields th node).2.1 = frontIconChainAmended th node ∧
    (pyTruthy card.front_icon = false →
      (draw_card_ops th meas imgExists card w h color).any isLargeIcon
          = false ∧
      (draw_card_ops th meas imgExists card w h color).any isSmallIcon
          = true) := by
  constructor
  · rcases hl : node.loot with _ | l
    · simp only [parseIconFields, frontIconChainAmended, hl, h1]
      rcases hv : firstVariant node with _ | ⟨v, fi⟩
      · simp [pyTruthy]
      · have hfi := h3 v fi hv
        rcases fi with _ | cf
        · simp [pyTruthy]
        · have hcf : cf.isEmpty = true := by
            simpa [pyTruthy] using hfi
          simp [pyTruthy, hcf]
    · have hf := h2 l hl
      simp only [parseIconFields, frontIconChainAmended, hl, hf,
        Bool.false_eq_true, if_false]
  · intro hfi
    have hL : ∀ M : List Str,
        (M.map DrawOp.bodyLine).any isLargeIcon = false := by
      intro M
      induction M with
      | nil => rfl
      | cons a M ih => simp [ih, isLargeIcon]
    have hS : ∀ M : List Str,
        (M.map DrawOp.bodyLine).any isSmallIcon = false := by
      intro M
      induction M with
      | nil => rfl
      | cons a M ih => simp [ih, isSmallIcon]
    constructor
    · simp only [draw_card_ops, hfi, Bool.false_eq_true, if_false,
        List.any_append, List.any_cons, List.any_nil, isLargeIcon,
        Bool.or_eq_true, Bool.or_false, Bool.false_or, hL]
      split_ifs <;> simp_all [isLargeIcon]
    · simp only [draw_card_ops, hfi, Bool.false_eq_true, if_false,
        List.any_append, List.any_cons, List.any_nil, isSmallIcon,
        Bool.or_eq_true, Bool.or_false, Bool.false_or, hS]
      split_ifs <;> simp_all [isSmallIcon]

/-- Witness for C7 at a concrete input: `lootSchoolNode` has no
explicit front-icon key, and `budgetMonster` has a falsy front icon. -/
theorem front_icon_resolution_priority_witness :
    ((parseIconFields weaponTheme lootSchoolNode).2.1
        = frontIconChainAmended weaponTheme lootSchoolNode) ∧
    ((draw_card_ops weaponTheme lenMeas noImg budgetMonster CARD_W CARD_H
        false).any isLargeIcon = false ∧
      (draw_card_ops weaponTheme lenMeas noImg budgetMonster CARD_W CARD_H
        false).any isSmallIcon = true) :=
  ⟨(front_icon_resolution_priority weaponTheme lootSchoolNode lenMeas noImg
      budgetMonster CARD_W CARD_H false rfl
      (fun l hl => by cases hl; rfl)
      (fun v fi h => by
        have hnv : firstVariant lootSchoolNode = none := by decide
        rw [hnv] at h
        exact Option.noConfusion h)).1,
    (front_icon_resolution_priority weaponTheme lootSchoolNode lenMeas noImg
      budgetMonster CARD_W CARD_H false rfl
      (fun l hl => by cases hl; rfl)
      (fun v fi h => by
        have hnv : firstVariant lootSchoolNode = none := by decide
        rw [hnv] at h
        exact Option.noConfusion h)).2 rfl⟩

end DeckPdf
